import Mathlib

/-!
Shallow embedding of the static file server in src/main.rs and proofs about
the claims of its specification.

Bytes are modelled as natural numbers.  The shared 256-byte read buffer is a
`List Nat`; the filesystem is a record of the two operations the program
performs (`is_dir` and `fs::read`), and each connection cycle reports the
filesystem operations it performed as an explicit trace.
-/

namespace Serve

/-- READ_BUFFER_SIZE from the source (line 14). -/
def READ_BUFFER_SIZE : Nat := 256

/-- START_OF_PATH from the source (line 109). -/
def START_OF_PATH : Nat := 4

/-- Filesystem model: the only two filesystem operations the handler performs,
as abstract functions keyed by the raw path string the code builds. -/
structure FS where
  isDir : String → Bool
  read : String → Option (List Nat)

/-- The three response shapes the handler can send, with the arguments passed
to send_response_simple, send_response_redirect and send_response_content. -/
inductive Response where
  | simple (code : Nat)
  | redirect (location : String)
  | content (contentType : String) (body : List Nat)
deriving DecidableEq

/-- Trace of filesystem operations performed during one connection cycle. -/
inductive FSOp where
  | isDirOp (path : String)
  | readOp (path : String)
deriving DecidableEq

/-- Result of a single socket read, mirroring std::io::Read::read. -/
inductive ReadResult where
  | ok (n : Nat)
  | err
deriving DecidableEq

/-- ASCII bytes of a string (all protocol strings are ASCII). -/
def strBytes (s : String) : List Nat := s.data.map Char.toNat

/-- The method check bytes (source line 103). -/
def GETSlash : List Nat := [71, 69, 84, 32, 47]

/-- read_buffer.starts_with(b"GET /") from source line 103. -/
def startsWithGetSlash (buf : List Nat) : Bool := GETSlash.isPrefixOf buf

/-- Terminator bytes of the request-line scan: space, question mark, hash
(source line 121). -/
def isTerm (b : Nat) : Bool := b == 32 || b == 63 || b == 35

/-- The request-line scan of source lines 110-129: walk indices i upward,
tracking whether the previous byte was a dot; two consecutive dots abort
(`none`, the 400 case); a terminator yields `some i`; running out of fuel
(reaching index READ_BUFFER_SIZE) leaves end_of_path at its initial value
READ_BUFFER_SIZE - 1. -/
def scanFrom (buf : List Nat) : Nat → Nat → Bool → Option Nat
  | 0, _, _ => some (READ_BUFFER_SIZE - 1)
  | fuel + 1, i, lastDot =>
    if buf.getD i 0 = 46 then
      if lastDot then none else scanFrom buf fuel (i + 1) true
    else if isTerm (buf.getD i 0) then some i
    else scanFrom buf fuel (i + 1) false

/-- end_of_path computed by the loop over START_OF_PATH+1..READ_BUFFER_SIZE. -/
def endOfPath (buf : List Nat) : Option Nat :=
  scanFrom buf (READ_BUFFER_SIZE - (START_OF_PATH + 1)) (START_OF_PATH + 1) false

/-- The slice read_buffer[START_OF_PATH..end_of_path] (source line 132). -/
def pathBytes (buf : List Nat) (e : Nat) : List Nat :=
  (buf.drop START_OF_PATH).take (e - START_OF_PATH)

/-- Continuation byte test of UTF-8 validation. -/
def isCont (b : Nat) : Bool := decide (128 ≤ b ∧ b ≤ 191)

/-- Allowed second byte of a three-byte UTF-8 sequence (excludes overlong
forms and surrogates, as std::str::from_utf8 does). -/
def utf8Valid3 (b c1 : Nat) : Bool :=
  if b = 224 then decide (160 ≤ c1 ∧ c1 ≤ 191)
  else if b = 237 then decide (128 ≤ c1 ∧ c1 ≤ 159)
  else isCont c1

/-- Allowed second byte of a four-byte UTF-8 sequence. -/
def utf8Valid4 (b c1 : Nat) : Bool :=
  if b = 240 then decide (144 ≤ c1 ∧ c1 ≤ 191)
  else if b = 244 then decide (128 ≤ c1 ∧ c1 ≤ 143)
  else isCont c1

/-- UTF-8 decoder with the exact validity conditions of
std::str::from_utf8: `none` is the Err case of source line 135. -/
def utf8Decode : List Nat → Option (List Char)
  | [] => some []
  | b :: rest =>
    if b < 128 then
      (utf8Decode rest).map (fun cs => Char.ofNat b :: cs)
    else if 194 ≤ b ∧ b ≤ 223 then
      match rest with
      | c1 :: rest2 =>
        if isCont c1 then
          (utf8Decode rest2).map (fun cs =>
            Char.ofNat ((b - 192) * 64 + (c1 - 128)) :: cs)
        else none
      | [] => none
    else if 224 ≤ b ∧ b ≤ 239 then
      match rest with
      | c1 :: c2 :: rest2 =>
        if utf8Valid3 b c1 && isCont c2 then
          (utf8Decode rest2).map (fun cs =>
            Char.ofNat ((b - 224) * 4096 + (c1 - 128) * 64 + (c2 - 128)) :: cs)
        else none
      | _ => none
    else if 240 ≤ b ∧ b ≤ 244 then
      match rest with
      | c1 :: c2 :: c3 :: rest2 =>
        if utf8Valid4 b c1 && (isCont c2 && isCont c3) then
          (utf8Decode rest2).map (fun cs =>
            Char.ofNat ((b - 240) * 262144 + (c1 - 128) * 4096
              + (c2 - 128) * 64 + (c3 - 128)) :: cs)
        else none
      | _ => none
    else none

/-- std::str::from_utf8 as an Option-valued string decoder. -/
def decodeUtf8Str (l : List Nat) : Option String :=
  (utf8Decode l).map (fun cs => String.mk cs)

/-- Split a character list at every occurrence of a separator character. -/
def splitOnChar (c : Char) : List Char → List (List Char)
  | [] => [[]]
  | a :: rest =>
    match splitOnChar c rest with
    | [] => [[]]
    | s :: ss => if a = c then [] :: s :: ss else (a :: s) :: ss

/-- Model of Rust Path::file_name on the raw path string: the last path
component after normalizing away empty and `.` components; `none` when there
is no component or the path ends in `..`. -/
def fileName (s : String) : Option (List Char) :=
  let comps := (splitOnChar '/' s.data).filter (fun c => c ≠ [] && c ≠ ['.'])
  match comps.getLast? with
  | some last => if last = ['.', '.'] then none else some last
  | none => none

/-- Model of Rust Path::extension: the portion of the file name after its
last dot; `none` when there is no file name, no dot, or the only dot is the
leading character of the file name. -/
def extensionOf (s : String) : Option (List Char) :=
  match fileName s with
  | none => none
  | some f =>
    match splitOnChar '.' f with
    | [] => none
    | [_] => none
    | [[], _] => none
    | parts => parts.getLast?

/-- The extension-to-MIME-type match of source lines 155-167; the empty
string is the fall-through arm. -/
def contentTypeFor (path : String) : String :=
  match extensionOf path with
  | some e =>
    if e = "html".data then "text/html"
    else if e = "css".data then "text/css"
    else if e = "js".data then "application/javascript"
    else if e = "svg".data then "image/svg+xml"
    else if e = "woff2".data then "font/woff2"
    else ""
  | none => ""

/-- partial_path.ends_with("/") from source line 147. -/
def endsWithSlash (s : String) : Bool :=
  match s.data.getLast? with
  | some c => c = '/'
  | none => false

/-- path.join("index.html") from source line 151: PathBuf::push adds a
separator only when one is not already present. -/
def joinIndex (p : String) : String :=
  if endsWithSlash p then p ++ "index.html" else p ++ "/index.html"

/-- Source lines 154-184: content-type lookup (404 on the empty fall-through
before any read), then fs::read (404 on error), then the content response.
`ops` is the filesystem trace accumulated so far. -/
def serveFile (fs : FS) (path : String) (ops : List FSOp) :
    List Response × List FSOp :=
  if (contentTypeFor path).length = 0 then ([Response.simple 404], ops)
  else
    match fs.read path with
    | some content => ([Response.content (contentTypeFor path) content],
        ops ++ [FSOp.readOp path])
    | none => ([Response.simple 404], ops ++ [FSOp.readOp path])

/-- Source lines 102-185: the respond phase of read_and_write, from the
method check to the final send, returning the responses sent and the
filesystem operations performed. -/
def handleRequest (publicDir : String) (fs : FS) (buf : List Nat) :
    List Response × List FSOp :=
  if startsWithGetSlash buf = false then ([Response.simple 400], [])
  else
    match endOfPath buf with
    | none => ([Response.simple 400], [])
    | some e =>
      match decodeUtf8Str (pathBytes buf e) with
      | none => ([Response.simple 400], [])
      | some p =>
        if fs.isDir (publicDir ++ p) = true then
          if endsWithSlash p = false then
            ([Response.redirect (p ++ "/")], [FSOp.isDirOp (publicDir ++ p)])
          else
            serveFile fs (joinIndex (publicDir ++ p))
              [FSOp.isDirOp (publicDir ++ p)]
        else
          serveFile fs (publicDir ++ p) [FSOp.isDirOp (publicDir ++ p)]

/-- The trailing-drain loop of source lines 89-100.  Each entry is the value
of RUNNING at the check at the top of the iteration paired with the result
of the read into the trash buffer.  `some false`: the handler returns false
(shutdown observed, or the read returned 0 bytes); `some true`: the read
errored, the loop breaks and the handler proceeds to respond; `none`: the
supplied events were exhausted while the loop was still reading. -/
def drainLoop : List (Bool × ReadResult) → Option Bool
  | [] => none
  | (running, r) :: rest =>
    if running = false then some false
    else
      match r with
      | ReadResult.ok 0 => some false
      | ReadResult.ok (_ + 1) => drainLoop rest
      | ReadResult.err => some true

/-- Result of one read_and_write call: responses sent, filesystem trace,
and the returned boolean (true keeps the stream in the live set). -/
structure CycleResult where
  responses : List Response
  ops : List FSOp
  retained : Bool
deriving DecidableEq

/-- Source lines 79-185: the whole of read_and_write.  `buf` is the content
of the shared read buffer after the leading read (residual bytes included);
`leadRead` is the result of that read; `drain` the events of the trailing
drain loop.  `none` models the drain loop still running when its events are
exhausted. -/
def readAndWrite (publicDir : String) (fs : FS) (buf : List Nat)
    (leadRead : ReadResult) (drain : List (Bool × ReadResult)) :
    Option CycleResult :=
  match leadRead with
  | ReadResult.err => some ⟨[], [], true⟩
  | ReadResult.ok 0 => some ⟨[], [], false⟩
  | ReadResult.ok (_ + 1) =>
    match drainLoop drain with
    | none => none
    | some false => some ⟨[], [], false⟩
    | some true =>
      some ⟨(handleRequest publicDir fs buf).1,
            (handleRequest publicDir fs buf).2, true⟩

/-- The match of send_response_simple on the status code (lines 191-195). -/
def responseStatusText (code : Nat) : String :=
  if code = 400 then "Bad Request"
  else if code = 404 then "Not Found"
  else ""

/-- The bytes written by send_response_simple (source lines 189-202). -/
def sendResponseSimple (code : Nat) : List Nat :=
  strBytes ("HTTP/1.1 " ++ toString code ++ " " ++ responseStatusText code
    ++ "\r\n\r\n")

/-- The bytes written by send_response_redirect (source lines 206-213). -/
def sendResponseRedirect (location : String) : List Nat :=
  strBytes ("HTTP/1.1 308 Permanent Redirect\r\nLocation: " ++ location
    ++ "\r\n\r\n")

/-- The bytes written by send_response_content (source lines 217-233). -/
def sendResponseContent (contentType : String) (content : List Nat) :
    List Nat :=
  strBytes ("HTTP/1.1 200 OK\r\nContent-Length: " ++ toString content.length
    ++ "\r\nContent-Type: " ++ contentType ++ "\r\n\r\n") ++ content

/-- The initial content of the shared read buffer (source line 42). -/
def bufZeros : List Nat := List.replicate READ_BUFFER_SIZE 48

/-- A 256-byte buffer holding the bytes of `s` followed by the residual
fill byte 48 of the shared buffer. -/
def mkBuf (s : String) : List Nat :=
  strBytes s ++ List.replicate (READ_BUFFER_SIZE - s.length) 48

/-- A filesystem with no directories and no readable files. -/
def fsEmpty : FS := ⟨fun _ => false, fun _ => none⟩

/-- A filesystem holding one html file. -/
def fsHtml : FS :=
  ⟨fun _ => false, fun q => if q = "public/i.html" then some [104, 105] else none⟩

/-- A filesystem holding one directory. -/
def fsAssets : FS := ⟨fun q => q = "public/assets", fun _ => none⟩

/-- A filesystem holding one directory that contains an index.html file. -/
def fsAssetsIdx : FS :=
  ⟨fun q => q = "public/assets/",
   fun q => if q = "public/assets/index.html" then some [60] else none⟩

/-- A filesystem holding one readable file with an unsupported extension. -/
def fsJson : FS :=
  ⟨fun _ => false, fun q => if q = "public/data.json" then some [123] else none⟩

/-- A buffer whose request line never terminates: only letter bytes after
the method prefix. -/
def bufNoTerm : List Nat := strBytes "GET /" ++ List.replicate 251 97

lemma serveFile_len (fs : FS) (p : String) (ops : List FSOp) :
    (serveFile fs p ops).1.length = 1 := by
  unfold serveFile
  split
  · rfl
  · split <;> rfl

lemma handleRequest_len (pd : String) (fs : FS) (buf : List Nat) :
    (handleRequest pd fs buf).1.length = 1 := by
  unfold handleRequest
  split
  · rfl
  · split
    · rfl
    · split
      · rfl
      · split
        · split
          · rfl
          · apply serveFile_len
        · apply serveFile_len

lemma serveFile_simple (fs : FS) (p : String) (ops : List FSOp) (c : Nat)
    (h : Response.simple c ∈ (serveFile fs p ops).1) : c = 404 := by
  unfold serveFile at h
  split at h
  · simp at h
    exact h
  · split at h
    · simp at h
    · simp at h
      exact h

lemma handleRequest_simple (pd : String) (fs : FS) (buf : List Nat) (c : Nat)
    (h : Response.simple c ∈ (handleRequest pd fs buf).1) :
    c = 400 ∨ c = 404 := by
  unfold handleRequest at h
  split at h
  · left; simpa using h
  · split at h
    · left; simpa using h
    · split at h
      · left; simpa using h
      · split at h
        · split at h
          · simp at h
          · right; exact serveFile_simple _ _ _ _ h
        · right; exact serveFile_simple _ _ _ _ h

lemma serveFile_ops (fs : FS) (p : String) (ops : List FSOp) :
    (serveFile fs p ops).2 = ops ∨
    (serveFile fs p ops).2 = ops ++ [FSOp.readOp p] := by
  unfold serveFile
  split
  · exact Or.inl rfl
  · split
    · exact Or.inr rfl
    · exact Or.inr rfl

lemma handleRequest_ops (pd : String) (fs : FS) (buf : List Nat) :
    ∃ s : String,
      (handleRequest pd fs buf).2 = [] ∨
      (handleRequest pd fs buf).2 = [FSOp.isDirOp (pd ++ s)] ∨
      (handleRequest pd fs buf).2
        = [FSOp.isDirOp (pd ++ s), FSOp.readOp (pd ++ s)] ∨
      (handleRequest pd fs buf).2
        = [FSOp.isDirOp (pd ++ s), FSOp.readOp (joinIndex (pd ++ s))] := by
  unfold handleRequest
  split
  · exact ⟨"", Or.inl rfl⟩
  · split
    · exact ⟨"", Or.inl rfl⟩
    · split
      · exact ⟨"", Or.inl rfl⟩
      · rename_i p hp
        refine ⟨p, ?_⟩
        split
        · split
          · exact Or.inr (Or.inl rfl)
          · rcases serveFile_ops fs (joinIndex (pd ++ p))
              [FSOp.isDirOp (pd ++ p)] with h | h
            · rw [h]; exact Or.inr (Or.inl rfl)
            · rw [h]; exact Or.inr (Or.inr (Or.inr rfl))
        · rcases serveFile_ops fs (pd ++ p) [FSOp.isDirOp (pd ++ p)] with h | h
          · rw [h]; exact Or.inr (Or.inl rfl)
          · rw [h]; exact Or.inr (Or.inr (Or.inl rfl))

lemma rbs_eq : READ_BUFFER_SIZE = 256 := rfl

lemma get4_of_start (buf : List Nat) (h : startsWithGetSlash buf = true) :
    buf.getD 4 0 = 47 := by
  unfold startsWithGetSlash GETSlash at h
  rw [List.isPrefixOf_iff_prefix] at h
  obtain ⟨t, ht⟩ := h
  rw [← ht]
  rfl

lemma scanFrom_noTerm (buf : List Nat)
    (hterm : ∀ k, 5 ≤ k → k < READ_BUFFER_SIZE → isTerm (buf.getD k 0) = false) :
    ∀ fuel i lastDot, i + fuel = READ_BUFFER_SIZE → 5 ≤ i →
      scanFrom buf fuel i lastDot = none ∨
      scanFrom buf fuel i lastDot = some (READ_BUFFER_SIZE - 1) := by
  intro fuel
  induction fuel with
  | zero => intro i lastDot _ _; right; rfl
  | succ fuel ih =>
    intro i lastDot hsum hi
    have ht := hterm i hi (by omega)
    unfold scanFrom
    by_cases hdot : buf.getD i 0 = 46
    · rw [if_pos hdot]
      cases lastDot
      · simp only [Bool.false_eq_true, if_false]
        exact ih (i + 1) true (by omega) (by omega)
      · left; rfl
    · rw [if_neg hdot, if_neg (by rw [ht]; exact Bool.false_ne_true)]
      exact ih (i + 1) false (by omega) (by omega)

lemma scanFrom_dotdot (buf : List Nat) (j : Nat)
    (hj5 : 5 ≤ j) (hj : j < READ_BUFFER_SIZE)
    (hd1 : buf.getD (j - 1) 0 = 46) (hd2 : buf.getD j 0 = 46)
    (hterm : ∀ k, 5 ≤ k → k < j → isTerm (buf.getD k 0) = false) :
    ∀ fuel i lastDot, i + fuel = READ_BUFFER_SIZE → 5 ≤ i → i ≤ j - 1 →
      scanFrom buf fuel i lastDot = none := by
  intro fuel
  induction fuel with
  | zero =>
    intro i lastDot hsum hi5 hij
    rw [rbs_eq] at hsum hj
    omega
  | succ fuel ih =>
    intro i lastDot hsum hi5 hij
    unfold scanFrom
    by_cases hij : i = j - 1
    · have hd1i : buf.getD i 0 = 46 := by rw [hij]; exact hd1
      rw [if_pos hd1i]
      cases lastDot
      · simp only [Bool.false_eq_true, if_false]
        have hi1 : i + 1 = j := by omega
        rw [hi1]
        match fuel, (by rw [rbs_eq] at hsum hj; omega : 1 ≤ fuel) with
        | f + 1, _ =>
          unfold scanFrom
          rw [if_pos hd2]
          simp
      · rfl
    · have hlt : i < j - 1 := by omega
      by_cases hdot : buf.getD i 0 = 46
      · rw [if_pos hdot]
        cases lastDot
        · simp only [Bool.false_eq_true, if_false]
          exact ih (i + 1) true (by omega) (by omega) (by omega)
        · rfl
      · have ht := hterm i hi5 (by omega)
        rw [if_neg hdot, if_neg (by rw [ht]; exact Bool.false_ne_true)]
        exact ih (i + 1) false (by omega) (by omega) (by omega)

/-- Claim C1, counterexample: a connection whose leading read returns one
byte, whose drain ends with a read error, and which is sent a 400 response,
is RETAINED by read_and_write (the returned boolean is true, so retain_mut
keeps it for the next poll iteration), contradicting the claim that a
responded-to connection is removed from the live set. -/
theorem claim1_counterexample :
    readAndWrite "public" fsEmpty bufZeros (ReadResult.ok 1)
      [(true, ReadResult.err)]
      = some ⟨[Response.simple 400], [], true⟩ := by
  decide

/-- Claim C1, amended: whenever read_and_write writes any response, it
returns true, so the multiplexer RETAINS the connection in the live set; a
connection is removed only when a read returns zero bytes or a shutdown is
observed during the drain, never because a response was sent. -/
theorem claim1_responded_retained (pd : String) (fs : FS) (buf : List Nat)
    (lead : ReadResult) (dr : List (Bool × ReadResult)) (res : CycleResult)
    (hres : readAndWrite pd fs buf lead dr = some res)
    (hresp : res.responses ≠ []) : res.retained = true := by
  unfold readAndWrite at hres
  cases lead with
  | err =>
    injection hres with h
    rw [← h]
  | ok n =>
    cases n with
    | zero =>
      injection hres with h
      rw [← h] at hresp
      simp at hresp
    | succ n =>
      cases hdl : drainLoop dr with
      | none => rw [hdl] at hres; cases hres
      | some b =>
        rw [hdl] at hres
        cases b
        · injection hres with h
          rw [← h] at hresp
          simp at hresp
        · injection hres with h
          rw [← h]

/-- Claim C1, witness: the amended theorem applied at the counterexample
input. -/
theorem claim1_witness :
    (⟨[Response.simple 400], [], true⟩ : CycleResult).retained = true :=
  claim1_responded_retained "public" fsEmpty bufZeros (ReadResult.ok 1)
    [(true, ReadResult.err)] ⟨[Response.simple 400], [], true⟩
    (by decide) (by decide)

/-- Claim C3, counterexample: a cycle whose leading read returns one byte
but whose trailing drain then reads zero bytes (peer closed) returns with
ZERO responses written, so the claim does not hold for every outcome of the
trailing-drain reads. -/
theorem claim3_counterexample :
    readAndWrite "." fsEmpty bufZeros (ReadResult.ok 1)
      [(true, ReadResult.ok 0)]
      = some ⟨[], [], false⟩ := by
  decide

/-- Claim C3, amended: for every connection cycle whose leading read
succeeds with at least one byte AND whose trailing drain terminates with a
read error (rather than a zero-byte read or an observed shutdown), exactly
one response is written, for every outcome of parsing, resolution and
content-type lookup. -/
theorem claim3_exactly_one_response (pd : String) (fs : FS) (buf : List Nat)
    (n : Nat) (dr : List (Bool × ReadResult)) (res : CycleResult)
    (hdrain : drainLoop dr = some true)
    (hres : readAndWrite pd fs buf (ReadResult.ok (n + 1)) dr = some res) :
    res.responses.length = 1 := by
  unfold readAndWrite at hres
  rw [hdrain] at hres
  injection hres with h
  rw [← h]
  exact handleRequest_len pd fs buf

/-- Claim C3, witness: the amended theorem applied at a concrete cycle that
sends a single 400 response. -/
theorem claim3_witness :
    (⟨[Response.simple 400], [], true⟩ : CycleResult).responses.length = 1 :=
  claim3_exactly_one_response "." fsEmpty bufZeros 0
    [(true, ReadResult.err)] ⟨[Response.simple 400], [], true⟩
    (by decide) (by decide)

set_option maxRecDepth 40000 in
/-- Claim C8, confirmed: the outcome of a cycle whose leading read succeeds
with at least one byte is a function of the full buffer contents only: the
byte count of the leading read is discarded (any two positive counts give
identical results), and consequently the parse ranges over residual bytes:
two buffers that agree on their first 6 bytes but differ in the residual
bytes beyond them produce different responses and different filesystem
traces. -/
theorem claim8_outcome_function_of_buffer :
    (∀ (pd : String) (fs : FS) (buf : List Nat)
       (dr : List (Bool × ReadResult)) (n m : Nat),
       readAndWrite pd fs buf (ReadResult.ok (n + 1)) dr
         = readAndWrite pd fs buf (ReadResult.ok (m + 1)) dr)
    ∧ (mkBuf "GET /x").take 6 = (mkBuf "GET /x..").take 6
    ∧ handleRequest "public" fsEmpty (mkBuf "GET /x")
        ≠ handleRequest "public" fsEmpty (mkBuf "GET /x..") := by
  refine ⟨fun pd fs buf dr n m => rfl, by decide, by decide⟩

/-- Claim C9, confirmed: during any connection cycle the filesystem trace
is empty or consists of one directory check of the concatenated path
public-root-plus-request-path, possibly followed by a single read of that
path or of that path joined with index.html; the trace contains no write
operation of any kind. -/
theorem claim9_fs_readonly (pd : String) (fs : FS) (buf : List Nat)
    (lead : ReadResult) (dr : List (Bool × ReadResult)) (res : CycleResult)
    (hres : readAndWrite pd fs buf lead dr = some res) :
    ∃ s : String,
      res.ops = [] ∨
      res.ops = [FSOp.isDirOp (pd ++ s)] ∨
      res.ops = [FSOp.isDirOp (pd ++ s), FSOp.readOp (pd ++ s)] ∨
      res.ops = [FSOp.isDirOp (pd ++ s), FSOp.readOp (joinIndex (pd ++ s))] := by
  unfold readAndWrite at hres
  cases lead with
  | err =>
    injection hres with h
    rw [← h]
    exact ⟨"", Or.inl rfl⟩
  | ok n =>
    cases n with
    | zero =>
      injection hres with h
      rw [← h]
      exact ⟨"", Or.inl rfl⟩
    | succ n =>
      cases hdl : drainLoop dr with
      | none => rw [hdl] at hres; cases hres
      | some b =>
        rw [hdl] at hres
        cases b
        · injection hres with h
          rw [← h]
          exact ⟨"", Or.inl rfl⟩
        · injection hres with h
          rw [← h]
          exact handleRequest_ops pd fs buf

/-- Claim C9, witness: the theorem applied at a cycle that serves a file,
whose trace is the directory check followed by the file read. -/
theorem claim9_witness :
    ∃ s : String,
      ([FSOp.isDirOp "public/i.html", FSOp.readOp "public/i.html"]
        : List FSOp) = [] ∨
      [FSOp.isDirOp "public/i.html", FSOp.readOp "public/i.html"]
        = [FSOp.isDirOp ("public" ++ s)] ∨
      [FSOp.isDirOp "public/i.html", FSOp.readOp "public/i.html"]
        = [FSOp.isDirOp ("public" ++ s), FSOp.readOp ("public" ++ s)] ∨
      [FSOp.isDirOp "public/i.html", FSOp.readOp "public/i.html"]
        = [FSOp.isDirOp ("public" ++ s),
           FSOp.readOp (joinIndex ("public" ++ s))] :=
  claim9_fs_readonly "public" fsHtml (mkBuf "GET /i.html ")
    (ReadResult.ok 12) [(true, ReadResult.err)]
    ⟨[Response.content "text/html" [104, 105]],
     [FSOp.isDirOp "public/i.html", FSOp.readOp "public/i.html"], true⟩
    (by decide)

/-- Claim C10, confirmed: every status-only response sent in any execution
carries code 400 with reason text Bad Request or code 404 with reason text
Not Found; the empty-reason fallback arm of send_response_simple is never
exercised. -/
theorem claim10_simple_codes (pd : String) (fs : FS) (buf : List Nat)
    (lead : ReadResult) (dr : List (Bool × ReadResult)) (res : CycleResult)
    (c : Nat)
    (hres : readAndWrite pd fs buf lead dr = some res)
    (hmem : Response.simple c ∈ res.responses) :
    (c = 400 ∧ responseStatusText c = "Bad Request") ∨
    (c = 404 ∧ responseStatusText c = "Not Found") := by
  unfold readAndWrite at hres
  cases lead with
  | err =>
    injection hres with h
    rw [← h] at hmem
    simp at hmem
  | ok n =>
    cases n with
    | zero =>
      injection hres with h
      rw [← h] at hmem
      simp at hmem
    | succ n =>
      cases hdl : drainLoop dr with
      | none => rw [hdl] at hres; cases hres
      | some b =>
        rw [hdl] at hres
        cases b
        · injection hres with h
          rw [← h] at hmem
          simp at hmem
        · injection hres with h
          rw [← h] at hmem
          rcases handleRequest_simple pd fs buf c hmem with hc | hc
          · subst hc; left; exact ⟨rfl, by decide⟩
          · subst hc; right; exact ⟨rfl, by decide⟩

/-- Claim C10, witness: the theorem applied at a cycle that sends a 400
response for a request that is not a GET. -/
theorem claim10_witness :
    (400 = 400 ∧ responseStatusText 400 = "Bad Request") ∨
    (400 = 404 ∧ responseStatusText 400 = "Not Found") :=
  claim10_simple_codes "public" fsEmpty (mkBuf "POST /x ")
    (ReadResult.ok 1) [(true, ReadResult.err)]
    ⟨[Response.simple 400], [], true⟩ 400 (by decide) (by decide)

lemma sop_eq : START_OF_PATH = 4 := rfl

set_option maxRecDepth 40000 in
/-- Claim C2, counterexample: on a buffer with no terminator byte after the
method prefix, the scan leaves end_of_path at 255 and the path slice is the
252-byte tail MINUS its final byte: the byte at offset 255 is not part of
the path, so the path is not the full remaining buffer. -/
theorem claim2_counterexample :
    endOfPath bufNoTerm = some 255 ∧
    pathBytes bufNoTerm 255 = (bufNoTerm.drop 4).take 251 ∧
    pathBytes bufNoTerm 255 ≠ bufNoTerm.drop 4 := by
  refine ⟨by decide, by decide, by decide⟩

/-- Claim C2, amended: when the request-line scan reaches the end of the
read buffer without finding a terminator byte, the path used for resolution
is the slice from offset 4 up to but EXCLUDING the final byte of the buffer
(offsets 4 through 254); the byte at offset 255 is dropped because
end_of_path keeps its initial value 255 and the slice bound is exclusive. -/
theorem claim2_no_terminator_path (buf : List Nat)
    (hlen : buf.length = READ_BUFFER_SIZE)
    (hterm : ∀ k < READ_BUFFER_SIZE, 5 ≤ k → isTerm (buf.getD k 0) = false)
    (e : Nat) (hscan : endOfPath buf = some e) :
    e = READ_BUFFER_SIZE - 1 ∧
    pathBytes buf e
      = (buf.drop START_OF_PATH).take (READ_BUFFER_SIZE - 1 - START_OF_PATH) ∧
    pathBytes buf e ≠ buf.drop START_OF_PATH := by
  have h := scanFrom_noTerm buf (fun k h5 hk => hterm k hk h5)
    (READ_BUFFER_SIZE - (START_OF_PATH + 1)) (START_OF_PATH + 1) false
    (by decide) (by decide)
  unfold endOfPath at hscan
  rcases h with h | h
  · rw [h] at hscan; cases hscan
  · rw [h] at hscan
    injection hscan with h2
    have he : e = READ_BUFFER_SIZE - 1 := h2.symm
    subst he
    refine ⟨rfl, rfl, ?_⟩
    intro hcontra
    have hc := congrArg List.length hcontra
    simp [pathBytes, hlen, rbs_eq, sop_eq] at hc

set_option maxRecDepth 40000 in
/-- Claim C2, witness: the amended theorem applied at the all-letters
buffer. -/
theorem claim2_witness :
    (255 : Nat) = READ_BUFFER_SIZE - 1 ∧
    pathBytes bufNoTerm 255
      = (bufNoTerm.drop START_OF_PATH).take (READ_BUFFER_SIZE - 1 - START_OF_PATH) ∧
    pathBytes bufNoTerm 255 ≠ bufNoTerm.drop START_OF_PATH :=
  claim2_no_terminator_path bufNoTerm (by decide) (by decide) 255 (by decide)

/-- Claim C4, counterexample: the request bytes GET /a .. contain the
substring of two consecutive dots after the method prefix, yet the server
does not respond 400: the scan stops at the space before the dots, the path
/a is resolved against the filesystem (a directory check is performed) and
the response is 404. -/
theorem claim4_counterexample :
    handleRequest "public" fsEmpty (mkBuf "GET /a ..")
      = ([Response.simple 404], [FSOp.isDirOp "public/a"]) := by
  decide

/-- Claim C4, amended: for every request whose bytes contain two
consecutive dots at positions before the first terminator byte (space,
question mark, hash) of the request-line scan, the server responds 400 Bad
Request and performs no filesystem operation at all. -/
theorem claim4_dotdot_rejected (pd : String) (fs : FS) (buf : List Nat)
    (j : Nat)
    (hstart : startsWithGetSlash buf = true)
    (hj5 : 5 ≤ j) (hj : j < READ_BUFFER_SIZE)
    (hd1 : buf.getD (j - 1) 0 = 46) (hd2 : buf.getD j 0 = 46)
    (hterm : ∀ k < j, 5 ≤ k → isTerm (buf.getD k 0) = false) :
    handleRequest pd fs buf = ([Response.simple 400], []) := by
  have h4 : buf.getD 4 0 = 47 := get4_of_start buf hstart
  have hj6 : 6 ≤ j := by
    rcases Nat.lt_or_ge j 6 with h | h
    · exfalso
      have h14 : j - 1 = 4 := by omega
      rw [h14, h4] at hd1
      exact absurd hd1 (by decide)
    · exact h
  have hscan : endOfPath buf = none := by
    unfold endOfPath
    exact scanFrom_dotdot buf j hj5 hj hd1 hd2
      (fun k h5 hk => hterm k hk h5)
      (READ_BUFFER_SIZE - (START_OF_PATH + 1)) (START_OF_PATH + 1) false
      (by decide) (by decide) (by rw [sop_eq]; omega)
  unfold handleRequest
  rw [hstart, hscan]
  simp

/-- Claim C4, witness: the amended theorem applied at a request with two
consecutive dots directly in the path. -/
theorem claim4_witness :
    handleRequest "public" fsEmpty (mkBuf "GET /a..")
      = ([Response.simple 400], []) :=
  claim4_dotdot_rejected "public" fsEmpty (mkBuf "GET /a..") 7
    (by decide) (by decide) (by decide) (by decide) (by decide) (by decide)

lemma handleRequest_eq_of_parse (pd p : String) (fs : FS) (buf : List Nat)
    (e : Nat)
    (hstart : startsWithGetSlash buf = true)
    (hscan : endOfPath buf = some e)
    (hdec : decodeUtf8Str (pathBytes buf e) = some p) :
    handleRequest pd fs buf =
      if fs.isDir (pd ++ p) = true then
        if endsWithSlash p = false then
          ([Response.redirect (p ++ "/")], [FSOp.isDirOp (pd ++ p)])
        else serveFile fs (joinIndex (pd ++ p)) [FSOp.isDirOp (pd ++ p)]
      else serveFile fs (pd ++ p) [FSOp.isDirOp (pd ++ p)] := by
  unfold handleRequest
  rw [hstart, hscan]
  simp only [Bool.true_eq_false, if_false]
  rw [hdec]

/-- Claim C5, confirmed: for every request whose parsed path resolves to a
readable file with an allow-listed extension and a successful read -- either
directly, when the concatenated path is not a directory, or via index.html,
when it is a directory and the request path carries a trailing slash -- the
handler sends exactly the content response for that file, and the bytes
written by send_response_content are the 200 status line, a Content-Length
header whose value is the exact byte length of the file, a Content-Type
header, a blank line, and then the raw file bytes unchanged. -/
theorem claim5_content_exact (pd p q : String) (fs : FS) (buf : List Nat)
    (e : Nat) (content : List Nat)
    (hstart : startsWithGetSlash buf = true)
    (hscan : endOfPath buf = some e)
    (hdec : decodeUtf8Str (pathBytes buf e) = some p)
    (hfinal : (fs.isDir (pd ++ p) = false ∧ q = pd ++ p) ∨
              (fs.isDir (pd ++ p) = true ∧ endsWithSlash p = true ∧
               q = joinIndex (pd ++ p)))
    (hct : (contentTypeFor q).length ≠ 0)
    (hread : fs.read q = some content) :
    handleRequest pd fs buf
      = ([Response.content (contentTypeFor q) content],
         [FSOp.isDirOp (pd ++ p), FSOp.readOp q]) ∧
    sendResponseContent (contentTypeFor q) content
      = strBytes ("HTTP/1.1 200 OK\r\nContent-Length: "
          ++ toString content.length ++ "\r\nContent-Type: "
          ++ contentTypeFor q ++ "\r\n\r\n") ++ content := by
  constructor
  · rw [handleRequest_eq_of_parse pd p fs buf e hstart hscan hdec]
    rcases hfinal with ⟨hdir, hq⟩ | ⟨hdir, hsl, hq⟩
    · rw [hdir]
      simp only [Bool.false_eq_true, if_false]
      unfold serveFile
      rw [← hq, if_neg hct, hread]
      simp
    · rw [hdir, hsl]
      simp only [Bool.true_eq_false, if_false, if_true]
      unfold serveFile
      rw [← hq, if_neg hct, hread]
      simp
  · rfl

/-- Claim C5, witness: the theorem applied at a request for /assets/ where
public/assets/ is a directory and public/assets/index.html holds one byte,
exercising the index.html resolution branch. -/
theorem claim5_witness :
    handleRequest "public" fsAssetsIdx (mkBuf "GET /assets/ ")
      = ([Response.content (contentTypeFor "public/assets/index.html") [60]],
         [FSOp.isDirOp ("public" ++ "/assets/"),
          FSOp.readOp "public/assets/index.html"]) ∧
    sendResponseContent (contentTypeFor "public/assets/index.html") [60]
      = strBytes ("HTTP/1.1 200 OK\r\nContent-Length: "
          ++ toString ([60] : List Nat).length
          ++ "\r\nContent-Type: "
          ++ contentTypeFor "public/assets/index.html"
          ++ "\r\n\r\n") ++ [60] :=
  claim5_content_exact "public" "/assets/" "public/assets/index.html"
    fsAssetsIdx (mkBuf "GET /assets/ ") 12 [60] (by decide) (by decide)
    (by decide) (Or.inr ⟨by decide, by decide, by decide⟩) (by decide)
    (by decide)

/-- Claim C6, confirmed: for every request whose concatenated path is a
directory while the request path has no trailing slash, the handler sends
exactly one 308 redirect whose Location value is the request path with a
slash appended, the filesystem trace holds only the directory check (no
read of index.html or of anything else), and the bytes written by
send_response_redirect are the 308 status line and the Location header. -/
theorem claim6_redirect_no_read (pd p : String) (fs : FS) (buf : List Nat)
    (e : Nat)
    (hstart : startsWithGetSlash buf = true)
    (hscan : endOfPath buf = some e)
    (hdec : decodeUtf8Str (pathBytes buf e) = some p)
    (hdir : fs.isDir (pd ++ p) = true)
    (hslash : endsWithSlash p = false) :
    handleRequest pd fs buf
      = ([Response.redirect (p ++ "/")], [FSOp.isDirOp (pd ++ p)]) ∧
    sendResponseRedirect (p ++ "/")
      = strBytes ("HTTP/1.1 308 Permanent Redirect\r\nLocation: "
          ++ (p ++ "/") ++ "\r\n\r\n") := by
  constructor
  · rw [handleRequest_eq_of_parse pd p fs buf e hstart hscan hdec, hdir,
      hslash]
    simp
  · rfl

/-- Claim C6, witness: the theorem applied at a request for /assets where
public/assets is a directory. -/
theorem claim6_witness :
    handleRequest "public" fsAssets (mkBuf "GET /assets ")
      = ([Response.redirect ("/assets" ++ "/")],
         [FSOp.isDirOp ("public" ++ "/assets")]) ∧
    sendResponseRedirect ("/assets" ++ "/")
      = strBytes ("HTTP/1.1 308 Permanent Redirect\r\nLocation: "
          ++ ("/assets" ++ "/") ++ "\r\n\r\n") :=
  claim6_redirect_no_read "public" "/assets" fsAssets (mkBuf "GET /assets ")
    11 (by decide) (by decide) (by decide) (by decide) (by decide)

/-- Claim C7, confirmed: for every request whose final resolved path (the
concatenated path, or that path joined with index.html when it is a
directory with a trailing-slash request path) has an extension outside the
allow-list or no extension, the handler responds 404 Not Found, even when
that file exists and is readable. -/
theorem claim7_unsupported_404 (pd p q : String) (fs : FS) (buf : List Nat)
    (e : Nat) (content : List Nat)
    (hstart : startsWithGetSlash buf = true)
    (hscan : endOfPath buf = some e)
    (hdec : decodeUtf8Str (pathBytes buf e) = some p)
    (hfinal : (fs.isDir (pd ++ p) = false ∧ q = pd ++ p) ∨
              (fs.isDir (pd ++ p) = true ∧ endsWithSlash p = true ∧
               q = joinIndex (pd ++ p)))
    (hct : (contentTypeFor q).length = 0)
    (hread : fs.read q = some content) :
    (handleRequest pd fs buf).1 = [Response.simple 404] := by
  rw [handleRequest_eq_of_parse pd p fs buf e hstart hscan hdec]
  rcases hfinal with ⟨hdir, hq⟩ | ⟨hdir, hsl, hq⟩
  · rw [hdir]
    simp only [Bool.false_eq_true, if_false]
    unfold serveFile
    rw [← hq, if_pos hct]
  · rw [hdir, hsl]
    simp only [Bool.true_eq_false, if_false, if_true]
    unfold serveFile
    rw [← hq, if_pos hct]

/-- Claim C7, witness: the theorem applied at a request for /data.json
where public/data.json exists and is readable but json is not in the
allow-list. -/
theorem claim7_witness :
    (handleRequest "public" fsJson (mkBuf "GET /data.json ")).1
      = [Response.simple 404] :=
  claim7_unsupported_404 "public" "/data.json" "public/data.json" fsJson
    (mkBuf "GET /data.json ") 14 [123] (by decide) (by decide) (by decide)
    (Or.inl ⟨by decide, by decide⟩) (by decide) (by decide)

end Serve
